import Mathlib

/-!
Verification development for the line-classification core of a source-line
counting tool (`src/language/language_type.rs`).

Bytes are modelled as `Nat`, byte strings as `List Nat`, and the per-file
scan state (`SyntaxCounter`) as an explicit record threaded through the
line loop.  `parse_lines`, `parse_basic`, `parse_from_slice` and the
`LanguageSummary` impl for `Stats` are translated from the source file;
the `SyntaxCounter` transition functions live in `language/syntax.rs`,
which is not part of the excerpt, so they are modelled from the
specification (section 4.1) and carry doc comments saying so.
-/

set_option autoImplicit false

namespace Tokei

/-- Classification outcome of one line: reported to the summary sink via
`blank_line`, `comment_line` or `code_line` respectively. -/
inductive LineKind where
  | blank
  | comment
  | code
deriving DecidableEq, Repr

/-- Modelled from the spec: the per-language entry of the Syntax Rule Table
(spec section 3) — line-comment markers, multi-line comment delimiter pairs,
the nesting flag, quote marker pairs, doc-quote marker pairs, the
column-sensitive (FORTRAN) flag and the `is_blank` flag.  The table itself is
generated data outside the excerpt. -/
structure Language where
  line_comments : List (List Nat)
  multi_line_comments : List (List Nat × List Nat)
  allows_nested : Bool
  quotes : List (List Nat × List Nat)
  doc_quotes : List (List Nat × List Nat)
  is_fortran : Bool
  is_blank : Bool
deriving DecidableEq, Repr

/-- Configuration consumed by the classifier: only
`treat_doc_strings_as_comments` is read (spec section 6). -/
structure Config where
  treat_doc_strings_as_comments : Option Bool
deriving DecidableEq, Repr

/-- Modelled from the spec: the Scan State (`SyntaxCounter` in
`language/syntax.rs`, not in the excerpt).  Static per-language fields are
copied from the rule table; `quote` holds the expected closing marker of the
currently open quote (if any), `stack` the closing markers of the currently
open block comments, innermost first. -/
structure SyntaxCounter where
  line_comments : List (List Nat)
  multi_line_comments : List (List Nat × List Nat)
  allows_nested : Bool
  quotes : List (List Nat × List Nat)
  doc_quotes : List (List Nat × List Nat)
  is_fortran : Bool
  quote : Option (List Nat)
  quote_is_doc_quote : Bool
  stack : List (List Nat)
deriving DecidableEq, Repr

/-- Modelled from the spec: `SyntaxCounter::new` — fresh scan state for one
file, no open quote, empty comment stack. -/
def SyntaxCounter.new (lang : Language) : SyntaxCounter :=
  { line_comments := lang.line_comments
    multi_line_comments := lang.multi_line_comments
    allows_nested := lang.allows_nested
    quotes := lang.quotes
    doc_quotes := lang.doc_quotes
    is_fortran := lang.is_fortran
    quote := none
    quote_is_doc_quote := false
    stack := [] }

/-- Whitespace test for a byte, as used by the byte-slice `trim` helper
(`utils/ext.rs`, not in the excerpt): space or any of TAB, LF, VT, FF, CR. -/
def isWS (b : Nat) : Bool := b == 32 || (9 ≤ b && b ≤ 13)

/-- Byte-slice trim: drop whitespace bytes from both ends
(`SliceExt::trim`, modelled from the spec's trimming language). -/
def trim (l : List Nat) : List Nat :=
  ((l.dropWhile isWS).reverse.dropWhile isWS).reverse

/-- Substring test on byte strings (`SliceExt::contains_slice`): `m` occurs
as a contiguous slice of `l`.  The empty string occurs in every string. -/
def contains_slice : List Nat → List Nat → Bool
  | [], m => m.isPrefixOf []
  | b :: t, m => m.isPrefixOf (b :: t) || contains_slice t m

/-- Modelled from the spec: `important_syntax` — the precomputed set of
marker byte strings the Fast Path scans a line for (spec section 3,
`important_substrings`): quote openers, doc-quote openers and multi-line
comment openers. -/
def important_markers (s : SyntaxCounter) : List (List Nat) :=
  s.quotes.map Prod.fst ++ s.doc_quotes.map Prod.fst ++
    s.multi_line_comments.map Prod.fst

/-- Modelled from the spec: `start_of_comments` — the language's
line-comment markers and block-comment start markers (spec section 4.2,
clause (b) of the classification predicate). -/
def start_of_comments (s : SyntaxCounter) : List (List Nat) :=
  s.line_comments ++ s.multi_line_comments.map Prod.fst

/-- Modelled from the spec: `try_close_quote` (spec section 4.1).  Matches
only while a quote is open: if the window starts with the expected closing
marker the quote is cleared and the marker consumed; an escape byte (`\`)
consumes two bytes so that an escaped closer is skipped; otherwise no
match. -/
def parse_end_of_quote (s : SyntaxCounter) (window : List Nat) :
    Option (Nat × SyntaxCounter) :=
  match s.quote with
  | none => none
  | some q =>
    if q.isPrefixOf window then some (q.length, { s with quote := none })
    else if [92].isPrefixOf window then some (2, s)
    else none

/-- Modelled from the spec: `try_close_multi_line_comment` (spec section
4.1).  Matches when the comment stack is non-empty and the window starts
with the end marker of the innermost open comment; pops one level. -/
def parse_end_of_multi_line (s : SyntaxCounter) (window : List Nat) :
    Option (Nat × SyntaxCounter) :=
  match s.stack with
  | [] => none
  | q :: rest =>
    if q.isPrefixOf window then some (q.length, { s with stack := rest })
    else none

/-- Modelled from the spec: `try_open_quote` (spec section 4.1).  Matches
only when no quote is open and the marker is not shadowed by being inside a
comment; doc-quote markers are tried before plain quote markers (spec
section 9: the most specific marker wins), and whether the opened quote is
a doc quote is recorded. -/
def parse_quote (s : SyntaxCounter) (window : List Nat) :
    Option (Nat × SyntaxCounter) :=
  if s.quote.isSome || !s.stack.isEmpty then none
  else
    match s.doc_quotes.find? (fun p => p.1.isPrefixOf window) with
    | some (o, c) =>
      some (o.length, { s with quote := some c, quote_is_doc_quote := true })
    | none =>
      match s.quotes.find? (fun p => p.1.isPrefixOf window) with
      | some (o, c) =>
        some (o.length, { s with quote := some c, quote_is_doc_quote := false })
      | none => none

/-- Modelled from the spec: `try_open_multi_line_comment` (spec section
4.1).  Matches when not inside a quote and the window starts with a start
marker; when already inside a comment it only matches (and pushes) when
nesting is allowed. -/
def parse_multi_line_comment (s : SyntaxCounter) (window : List Nat) :
    Option (Nat × SyntaxCounter) :=
  if s.quote.isSome then none
  else
    match s.multi_line_comments.find? (fun p => p.1.isPrefixOf window) with
    | some (o, c) =>
      if s.stack.isEmpty || s.allows_nested then
        some (o.length, { s with stack := c :: s.stack })
      else none
    | none => none

/-- Modelled from the spec: `try_line_comment` (spec section 4.1).  Matches
when not inside a quote or block comment and the window starts with a
line-comment marker; the caller stops scanning the rest of the line. -/
def parse_line_comment (s : SyntaxCounter) (window : List Nat) : Bool :=
  s.quote.isNone && s.stack.isEmpty &&
    s.line_comments.any (fun m => m.isPrefixOf window)

/-- Embedding of `LanguageType::parse_basic` (the Fast Path,
`language_type.rs` lines 120-142).  Fails (`none`) when a quote is open,
the comment stack is non-empty, or the line contains an important marker;
otherwise classifies the line as comment exactly when it starts with a
line-comment marker, else as code.  The scan state is not touched. -/
def parse_basic (s : SyntaxCounter) (line : List Nat) : Option LineKind :=
  if s.quote.isSome || !s.stack.isEmpty ||
      ( important_markers s).any (fun m => contains_slice line m) then
    none
  else if s.line_comments.any (fun m => m.isPrefixOf line) then
    some LineKind.comment
  else
    some LineKind.code

/-- Embedding of the window loop of `LanguageType::parse_lines`
(`language_type.rs` lines 177-211), recursing on the unscanned suffix of
the line.  `skip` counts byte positions still to be consumed by the last
match; `ewc` is the running `ended_with_comments` flag, reset to `false` at
every scanned (non-skipped) position. -/
def windowGo (s : SyntaxCounter) (rest : List Nat) (skip : Nat) (ewc : Bool) :
    SyntaxCounter × Bool :=
  match rest with
  | [] => (s, ewc)
  | _ :: tail =>
    if skip ≠ 0 then windowGo s tail (skip - 1) ewc
    else
      match parse_end_of_quote s rest with
      | some (n, s1) => windowGo s1 tail (n - 1) true
      | none =>
        match parse_end_of_multi_line s rest with
        | some (n, s1) => windowGo s1 tail (n - 1) true
        | none =>
          if s.quote.isSome then windowGo s tail 0 false
          else
            match parse_quote s rest with
            | some (n, s1) => windowGo s1 tail (n - 1) false
            | none =>
              match parse_multi_line_comment s rest with
              | some (n, s1) => windowGo s1 tail (n - 1) false
              | none =>
                if parse_line_comment s rest then (s, true)
                else windowGo s tail 0 false

/-- Working copy of the line handed to the byte-window scan: FORTRAN
(column-sensitive comments) keeps the raw line, every other language trims
leading and trailing whitespace (`language_type.rs` line 163). -/
def lineOf (s : SyntaxCounter) (raw_line : List Nat) : List Nat :=
  if s.is_fortran then raw_line else trim raw_line

/-- Embedding of the `is_comments` classification predicate of
`LanguageType::parse_lines` (`language_type.rs` lines 215-239), evaluated
on the post-scan state. -/
def is_comments (config : Config) (s : SyntaxCounter) (line : List Nat)
    (had_multi_line ended_with_comments : Bool) : Bool :=
  ((!s.stack.isEmpty || ended_with_comments) && had_multi_line) ||
  (( start_of_comments s).any (fun c => c.isPrefixOf line) && s.quote.isNone) ||
  ((s.quote.isSome || s.doc_quotes.any (fun p => p.1.isPrefixOf line)) &&
    (config.treat_doc_strings_as_comments == some true) && s.quote_is_doc_quote)

/-- Embedding of one iteration of the per-line loop of
`LanguageType::parse_lines` (`language_type.rs` lines 153-248): blank
check, FORTRAN trimming, Fast Path attempt, byte-window scan and the
`is_comments` classification, returning the new scan state and the line's
classification. -/
def processLine (config : Config) (s : SyntaxCounter) (raw_line : List Nat) :
    SyntaxCounter × LineKind :=
  if trim raw_line = [] then (s, LineKind.blank)
  else
    let line := lineOf s raw_line
    let had_multi_line := !s.stack.isEmpty
    match parse_basic s line with
    | some kind => (s, kind)
    | none =>
      let scanned := windowGo s line 0 false
      (scanned.1,
        if is_comments config scanned.1 line had_multi_line scanned.2 then
          LineKind.comment
        else LineKind.code)

/-- Modelled from the spec: the full byte-window scan without the Fast Path
attempt (spec section 4.2, steps 1 and 3-4 only) — the comparison object
for the Fast Path refinement claim: `parse_basic` must agree with it. -/
def processLineFull (config : Config) (s : SyntaxCounter) (raw_line : List Nat) :
    SyntaxCounter × LineKind :=
  if trim raw_line = [] then (s, LineKind.blank)
  else
    let line := lineOf s raw_line
    let had_multi_line := !s.stack.isEmpty
    let scanned := windowGo s line 0 false
    (scanned.1,
      if is_comments config scanned.1 line had_multi_line scanned.2 then
        LineKind.comment
      else LineKind.code)

/-- Interface of the `LanguageSummary` trait (`language_type.rs` lines
25-38): an accumulator of type `T` with the four line-kind reporting
operations and the post-processing step.  The construction from a path
identity is modelled by passing the initial accumulator explicitly. -/
structure LanguageSummary (T : Type) where
  unprocessed_lines : T → Nat → T
  code_line : T → List Nat → T
  comment_line : T → List Nat → T
  blank_line : T → List Nat → T
  postprocess : T → T

/-- Dispatch of one classified line to the matching sink operation
(the `stats.comment_line` / `stats.code_line` / `stats.blank_line` calls in
`parse_lines`). -/
def reportLine {T : Type} (sink : LanguageSummary T) (st : T)
    (raw_line : List Nat) : LineKind → T
  | LineKind.blank => sink.blank_line st raw_line
  | LineKind.comment => sink.comment_line st raw_line
  | LineKind.code => sink.code_line st raw_line

/-- One step of the per-line fold of `parse_lines`: advance the scan state
and report the classification to the sink. -/
def parseStep {T : Type} (config : Config) (sink : LanguageSummary T)
    (p : SyntaxCounter × T) (raw_line : List Nat) : SyntaxCounter × T :=
  let r := processLine config p.1 raw_line
  (r.1, reportLine sink p.2 raw_line r.2)

/-- Embedding of `LanguageType::parse_lines` (`language_type.rs` lines
144-252): fresh scan state, per-line loop, then exactly one `postprocess`
call on the accumulated summary. -/
def parse_lines {T : Type} (config : Config) (lang : Language)
    (sink : LanguageSummary T) (lines : List (List Nat)) (st0 : T) : T :=
  sink.postprocess
    (List.foldl (parseStep config sink) (SyntaxCounter.new lang, st0) lines).2

/-- Splitter worker: splits a byte buffer at `\n`, each produced line keeps
its terminating `\n`; `acc` holds the bytes of the current line reversed. -/
def splitLinesGo (acc : List Nat) : List Nat → List (List Nat)
  | [] => if acc.isEmpty then [] else [acc.reverse]
  | b :: rest =>
    if b == 10 then (10 :: acc).reverse :: splitLinesGo [] rest
    else splitLinesGo (b :: acc) rest

/-- Embedding of `LineIter` construction on the delimiter byte 10: split
the byte buffer into
lines at the single delimiter byte `\n` (terminators kept, a final
unterminated line is still produced, empty input yields no lines). -/
def splitLines (text : List Nat) : List (List Nat) :=
  splitLinesGo [] text

/-- Embedding of `LanguageType::parse_from_slice` (`language_type.rs` lines
99-114): split into lines, then either hand all lines to the sink as
`unprocessed_lines` (languages flagged `is_blank`) or run the per-line
scanner `parse_lines`. -/
def parse_from_slice {T : Type} (lang : Language) (config : Config)
    (text : List Nat) (sink : LanguageSummary T) (init : T) : T :=
  let lines := splitLines text
  if lang.is_blank then sink.unprocessed_lines init lines.length
  else parse_lines config lang sink lines init

/-- Per-file counts of the `Stats` summary (`stats.rs`, represented here by
its four counters; the path identity carried by `Stats::new` plays no role
in the counting contract). -/
structure Stats where
  lines : Nat
  code : Nat
  comments : Nat
  blanks : Nat
deriving DecidableEq, Repr

/-- Fresh `Stats`: all four counters zero. -/
def Stats.new : Stats := { lines := 0, code := 0, comments := 0, blanks := 0 }

/-- Embedding of `impl LanguageSummary for Stats` (`language_type.rs` lines
40-64): `unprocessed_lines` adds the line count to both `code` and `lines`;
the three per-line operations bump their counter only; `postprocess`
derives `lines` as `blanks + code + comments`. -/
def statsSummary : LanguageSummary Stats :=
  { unprocessed_lines := fun s n => { s with code := s.code + n, lines := s.lines + n }
    code_line := fun s _ => { s with code := s.code + 1 }
    comment_line := fun s _ => { s with comments := s.comments + 1 }
    blank_line := fun s _ => { s with blanks := s.blanks + 1 }
    postprocess := fun s => { s with lines := s.blanks + s.code + s.comments } }

/-- Instrumented sink that counts how many times `postprocess` is invoked
and ignores everything else; used to settle the invocation-count claim. -/
def countingSummary : LanguageSummary Nat :=
  { unprocessed_lines := fun n _ => n
    code_line := fun n _ => n
    comment_line := fun n _ => n
    blank_line := fun n _ => n
    postprocess := fun n => n + 1 }

/-- Scan of a line by ordered checks, written from the claim: at each byte
position attempt, in this fixed order, end-of-quote, end-of-multi-line
comment, then (only when no quote is open) open-quote, open-multi-line
comment, and line-comment detection last; the first match consumes its
bytes (the scan resumes directly after them, skipping every other check in
between) and a line-comment match stops the scan of the rest of the line.
To be proved equal to the skip-counter loop `windowGo` of the source. -/
def orderedScan (s : SyntaxCounter) (rest : List Nat) (ewc : Bool) :
    SyntaxCounter × Bool :=
  match rest with
  | [] => (s, ewc)
  | _ :: tail =>
    match parse_end_of_quote s rest with
    | some (n, s1) => orderedScan s1 (tail.drop (n - 1)) true
    | none =>
      match parse_end_of_multi_line s rest with
      | some (n, s1) => orderedScan s1 (tail.drop (n - 1)) true
      | none =>
        if s.quote.isSome then orderedScan s tail false
        else
          match parse_quote s rest with
          | some (n, s1) => orderedScan s1 (tail.drop (n - 1)) false
          | none =>
            match parse_multi_line_comment s rest with
            | some (n, s1) => orderedScan s1 (tail.drop (n - 1)) false
            | none =>
              if parse_line_comment s rest then (s, true)
              else orderedScan s tail false
termination_by rest.length
decreasing_by
  all_goals simp [List.length_drop]
  all_goals omega

/-- A C-like language for concrete checks: line comments `//`, block
comments `/*` `*/` without nesting, plain double-quote strings. -/
def cLang : Language :=
  { line_comments := [[47, 47]]
    multi_line_comments := [([47, 42], [42, 47])]
    allows_nested := false
    quotes := [([34], [34])]
    doc_quotes := []
    is_fortran := false
    is_blank := false }

/-- A Python-like language for concrete checks: line comments `#`, plain
double-quote strings, triple-double-quote doc strings. -/
def pyLang : Language :=
  { line_comments := [[35]]
    multi_line_comments := []
    allows_nested := false
    quotes := [([34], [34])]
    doc_quotes := [([34, 34, 34], [34, 34, 34])]
    is_fortran := false
    is_blank := false }

/-- A language flagged `is_blank`: no comment syntax at all, every line
counts as code. -/
def blankLang : Language :=
  { line_comments := []
    multi_line_comments := []
    allows_nested := false
    quotes := []
    doc_quotes := []
    is_fortran := false
    is_blank := true }

/-- Bytes of the line `x = "a // b"`. -/
def c3text : List Nat := [120, 32, 61, 32, 34, 97, 32, 47, 47, 32, 98, 34]

/-- Bytes of the file `/*\n\n x`: a block comment opened on the first line
and never closed, a whitespace-only second line, a third line ` x`. -/
def c4text : List Nat := [47, 42, 10, 10, 32, 120]

/-- Scan state of `cLang` in the middle of an open block comment: the
closing marker `*/` is on the stack. -/
def insideCommentState : SyntaxCounter :=
  { SyntaxCounter.new cLang with stack := [[42, 47]] }

/-- Scan state of `cLang` inside an open double-quote string literal. -/
def qState : SyntaxCounter :=
  { SyntaxCounter.new cLang with quote := some [34] }

/-- Bytes of the doc-string line `"""d"""`. -/
def docLine : List Nat := [34, 34, 34, 100, 34, 34, 34]

/-! Helper lemmas. -/

/-- A marker that is a prefix of a string occurs in it as a slice. -/
theorem contains_slice_of_isPrefixOf {l m : List Nat}
    (h : m.isPrefixOf l = true) : contains_slice l m = true := by
  cases l with
  | nil => simpa [contains_slice] using h
  | cons b t => simp [contains_slice, h]

/-- A marker absent from a string is absent from its tail. -/
theorem contains_slice_tail_eq_false {b : Nat} {t m : List Nat}
    (h : contains_slice (b :: t) m = false) : contains_slice t m = false := by
  simp only [contains_slice, Bool.or_eq_false_iff] at h
  exact h.2

/-- A marker absent from a string is not a prefix of it. -/
theorem isPrefixOf_eq_false_of_contains {l m : List Nat}
    (h : contains_slice l m = false) : m.isPrefixOf l = false := by
  cases hp : m.isPrefixOf l with
  | true => rw [contains_slice_of_isPrefixOf hp] at h; cases h
  | false => rfl

/-- Boolean equality with `some true` computes to `false` on every other
option. -/
theorem beq_some_true_eq_false {o : Option Bool} (h : o ≠ some true) :
    (o == some true) = false := by
  cases o with
  | none => rfl
  | some b =>
    cases b with
    | false => rfl
    | true => exact absurd rfl h

/-- The counting sink ignores every per-line report. -/
theorem reportLine_counting (st : Nat) (raw_line : List Nat) (k : LineKind) :
    reportLine countingSummary st raw_line k = st := by
  cases k <;> rfl

/-- The per-line fold over the counting sink never changes the count. -/
theorem counting_fold (config : Config) :
    ∀ (lines : List (List Nat)) (sc : SyntaxCounter) (n : Nat),
      (List.foldl (parseStep config countingSummary) (sc, n) lines).2 = n := by
  intro lines
  induction lines with
  | nil => intro sc n; rfl
  | cons raw t ih =>
    intro sc n
    simp only [List.foldl_cons, parseStep, reportLine_counting]
    exact ih _ n

/-- Unfolding of `windowGo` at a non-empty suffix (definitional, since the
recursion is structural on the suffix). -/
theorem windowGo_cons (s : SyntaxCounter) (b : Nat) (tail : List Nat)
    (skip : Nat) (ewc : Bool) :
    windowGo s (b :: tail) skip ewc =
      if skip ≠ 0 then windowGo s tail (skip - 1) ewc
      else
        match parse_end_of_quote s (b :: tail) with
        | some (n, s1) => windowGo s1 tail (n - 1) true
        | none =>
          match parse_end_of_multi_line s (b :: tail) with
          | some (n, s1) => windowGo s1 tail (n - 1) true
          | none =>
            if s.quote.isSome then windowGo s tail 0 false
            else
              match parse_quote s (b :: tail) with
              | some (n, s1) => windowGo s1 tail (n - 1) false
              | none =>
                match parse_multi_line_comment s (b :: tail) with
                | some (n, s1) => windowGo s1 tail (n - 1) false
                | none =>
                  if parse_line_comment s (b :: tail) then (s, true)
                  else windowGo s tail 0 false := rfl

/-- The empty suffix ends the scan with the current state and flag. -/
theorem orderedScan_nil (s : SyntaxCounter) (ewc : Bool) :
    orderedScan s [] ewc = (s, ewc) := by
  rw [orderedScan.eq_def]

/-- Unfolding of `orderedScan` at a non-empty suffix. -/
theorem orderedScan_cons (s : SyntaxCounter) (b : Nat) (tail : List Nat)
    (ewc : Bool) :
    orderedScan s (b :: tail) ewc =
      match parse_end_of_quote s (b :: tail) with
      | some (n, s1) => orderedScan s1 (tail.drop (n - 1)) true
      | none =>
        match parse_end_of_multi_line s (b :: tail) with
        | some (n, s1) => orderedScan s1 (tail.drop (n - 1)) true
        | none =>
          if s.quote.isSome then orderedScan s tail false
          else
            match parse_quote s (b :: tail) with
            | some (n, s1) => orderedScan s1 (tail.drop (n - 1)) false
            | none =>
              match parse_multi_line_comment s (b :: tail) with
              | some (n, s1) => orderedScan s1 (tail.drop (n - 1)) false
              | none =>
                if parse_line_comment s (b :: tail) then (s, true)
                else orderedScan s tail false := by
  rw [orderedScan.eq_def]

/-- The skip-counter loop agrees with the ordered-checks scan on every
suffix, for every pending skip count. -/
theorem windowGo_eq_orderedScan_aux :
    ∀ (n : Nat) (rest : List Nat), rest.length ≤ n →
      ∀ (s : SyntaxCounter) (k : Nat) (e : Bool),
        windowGo s rest k e = orderedScan s (rest.drop k) e := by
  intro n
  induction n with
  | zero =>
    intro rest h s k e
    have hr : rest = [] := List.eq_nil_of_length_eq_zero (Nat.le_zero.mp h)
    subst hr
    simp [windowGo, orderedScan_nil]
  | succ n ih =>
    intro rest h s k e
    cases rest with
    | nil => simp [windowGo, orderedScan_nil]
    | cons b tail =>
      have htail : tail.length ≤ n := by
        simp only [List.length_cons] at h
        omega
      cases k with
      | succ k' =>
        rw [windowGo_cons, List.drop_succ_cons]
        simp only [Nat.succ_ne_zero, ne_eq, not_false_eq_true, if_true,
          Nat.succ_sub_one]
        exact ih tail htail s k' e
      | zero =>
        rw [List.drop_zero, windowGo_cons, orderedScan_cons]
        simp only [ne_eq, not_true_eq_false, if_false]
        cases h1 : parse_end_of_quote s (b :: tail) with
        | some r =>
          obtain ⟨m, s1⟩ := r
          exact ih tail htail s1 (m - 1) true
        | none =>
          cases h2 : parse_end_of_multi_line s (b :: tail) with
          | some r =>
            obtain ⟨m, s1⟩ := r
            exact ih tail htail s1 (m - 1) true
          | none =>
            cases hq : s.quote.isSome with
            | true =>
              simp only [if_true]
              exact ih tail htail s 0 false
            | false =>
              simp only [Bool.false_eq_true, if_false]
              cases h3 : parse_quote s (b :: tail) with
              | some r =>
                obtain ⟨m, s1⟩ := r
                exact ih tail htail s1 (m - 1) false
              | none =>
                cases h4 : parse_multi_line_comment s (b :: tail) with
                | some r =>
                  obtain ⟨m, s1⟩ := r
                  exact ih tail htail s1 (m - 1) false
                | none =>
                  cases h5 : parse_line_comment s (b :: tail) with
                  | true => simp only [if_true]
                  | false =>
                    simp only [Bool.false_eq_true, if_false]
                    exact ih tail htail s 0 false

/-- With no open quote the close-quote check never matches. -/
theorem parse_end_of_quote_none_of_no_quote {s : SyntaxCounter}
    (w : List Nat) (h : s.quote = none) : parse_end_of_quote s w = none := by
  simp [parse_end_of_quote, h]

/-- With an empty comment stack the close-comment check never matches. -/
theorem parse_end_of_multi_none_of_empty {s : SyntaxCounter}
    (w : List Nat) (h : s.stack = []) : parse_end_of_multi_line s w = none := by
  simp [parse_end_of_multi_line, h]

/-- The close-comment check fails when no stacked closer prefixes the
window. -/
theorem parse_end_of_multi_none_of_no_closer {s : SyntaxCounter}
    {w : List Nat} (h : ∀ m ∈ s.stack, m.isPrefixOf w = false) :
    parse_end_of_multi_line s w = none := by
  unfold parse_end_of_multi_line
  cases hs : s.stack with
  | nil => rfl
  | cons q rest =>
    have : q.isPrefixOf w = false := h q (by rw [hs]; exact List.mem_cons_self q rest)
    simp [this]

/-- The open-quote check fails when neither a doc-quote nor a quote opener
prefixes the window. -/
theorem parse_quote_none_of_no_marker {s : SyntaxCounter} {w : List Nat}
    (hd : ∀ p ∈ s.doc_quotes, p.1.isPrefixOf w = false)
    (hq : ∀ p ∈ s.quotes, p.1.isPrefixOf w = false) :
    parse_quote s w = none := by
  unfold parse_quote
  have h1 : s.doc_quotes.find? (fun p => p.1.isPrefixOf w) = none :=
    List.find?_eq_none.mpr (fun p hp => by simp [hd p hp])
  have h2 : s.quotes.find? (fun p => p.1.isPrefixOf w) = none :=
    List.find?_eq_none.mpr (fun p hp => by simp [hq p hp])
  rw [h1, h2]
  simp

/-- The open-quote check fails while a block comment is open (the marker is
shadowed by being inside the comment). -/
theorem parse_quote_none_of_stack {s : SyntaxCounter} (w : List Nat)
    (hs : s.stack ≠ []) : parse_quote s w = none := by
  unfold parse_quote
  cases h : s.stack with
  | nil => exact absurd h hs
  | cons a t => simp [h]

/-- The open-comment check fails when no start marker prefixes the
window. -/
theorem parse_multi_none_of_no_marker {s : SyntaxCounter} {w : List Nat}
    (hm : ∀ p ∈ s.multi_line_comments, p.1.isPrefixOf w = false) :
    parse_multi_line_comment s w = none := by
  unfold parse_multi_line_comment
  have h : s.multi_line_comments.find? (fun p => p.1.isPrefixOf w) = none :=
    List.find?_eq_none.mpr (fun p hp => by simp [hm p hp])
  rw [h]
  simp

/-- Inversion of a successful open-comment check: the state change is
exactly one push of the end marker of some delimiter pair of the
language. -/
theorem parse_multi_inv {s : SyntaxCounter} {w : List Nat} {n : Nat}
    {s1 : SyntaxCounter} (h : parse_multi_line_comment s w = some (n, s1)) :
    ∃ p ∈ s.multi_line_comments, s1 = { s with stack := p.2 :: s.stack } := by
  unfold parse_multi_line_comment at h
  by_cases hq : s.quote.isSome = true
  · simp [hq] at h
  · simp only [Bool.not_eq_true] at hq
    rw [if_neg (by simp [hq])] at h
    cases hf : s.multi_line_comments.find? (fun p => p.1.isPrefixOf w) with
    | none => rw [hf] at h; cases h
    | some p =>
      obtain ⟨o, c⟩ := p
      rw [hf] at h
      by_cases hc : (s.stack.isEmpty || s.allows_nested) = true
      · simp only [hc, if_true, Option.some.injEq, Prod.mk.injEq] at h
        exact ⟨(o, c), List.mem_of_find?_eq_some hf, h.2.symm⟩
      · simp only [hc, if_false] at h
        cases h

/-- The line-comment check fails while a block comment is open. -/
theorem parse_line_comment_false_of_stack {s : SyntaxCounter} (w : List Nat)
    (hs : s.stack ≠ []) : parse_line_comment s w = false := by
  unfold parse_line_comment
  cases h : s.stack with
  | nil => exact absurd h hs
  | cons a t => simp [h]

/-- The Fast Path fails while a block comment is open. -/
theorem parse_basic_none_of_stack {s : SyntaxCounter} (hs : s.stack ≠ [])
    (line : List Nat) : parse_basic s line = none := by
  unfold parse_basic
  have h : s.stack.isEmpty = false := by
    cases hx : s.stack with
    | nil => exact absurd hx hs
    | cons a t => rfl
  simp [h]

/-- Calm-scan lemma: with no open quote, an empty comment stack, and no
important marker occurring in the suffix, the window scan never changes the
scan state (every check except the line-comment one fails at every
position). -/
theorem windowGo_calm :
    ∀ (rest : List Nat) (s : SyntaxCounter) (k : Nat) (e : Bool),
      s.quote = none → s.stack = [] →
      (∀ m ∈ important_markers s, contains_slice rest m = false) →
      (windowGo s rest k e).1 = s := by
  intro rest
  induction rest with
  | nil => intro s k e _ _ _; rfl
  | cons b tail ih =>
    intro s k e hq hs himp
    have himpt : ∀ m ∈ important_markers s, contains_slice tail m = false :=
      fun m hm => contains_slice_tail_eq_false (himp m hm)
    have hd : ∀ p ∈ s.doc_quotes, p.1.isPrefixOf (b :: tail) = false := by
      intro p hp
      refine isPrefixOf_eq_false_of_contains (himp p.1 ?_)
      unfold important_markers
      refine List.mem_append.mpr (Or.inl (List.mem_append.mpr (Or.inr ?_)))
      exact List.mem_map.mpr ⟨p, hp, rfl⟩
    have hqm : ∀ p ∈ s.quotes, p.1.isPrefixOf (b :: tail) = false := by
      intro p hp
      refine isPrefixOf_eq_false_of_contains (himp p.1 ?_)
      unfold important_markers
      refine List.mem_append.mpr (Or.inl (List.mem_append.mpr (Or.inl ?_)))
      exact List.mem_map.mpr ⟨p, hp, rfl⟩
    have hmm : ∀ p ∈ s.multi_line_comments, p.1.isPrefixOf (b :: tail) = false := by
      intro p hp
      refine isPrefixOf_eq_false_of_contains (himp p.1 ?_)
      unfold important_markers
      refine List.mem_append.mpr (Or.inr ?_)
      exact List.mem_map.mpr ⟨p, hp, rfl⟩
    rw [windowGo_cons]
    by_cases hk : k = 0
    · subst hk
      simp only [ne_eq, not_true_eq_false, if_false]
      rw [parse_end_of_quote_none_of_no_quote _ hq,
        parse_end_of_multi_none_of_empty _ hs]
      have hqf : s.quote.isSome = false := by simp [hq]
      rw [hqf]
      simp only [Bool.false_eq_true, if_false]
      rw [parse_quote_none_of_no_marker hd hqm, parse_multi_none_of_no_marker hmm]
      cases h5 : parse_line_comment s (b :: tail) with
      | true => simp
      | false =>
        simp only [Bool.false_eq_true, if_false]
        exact ih s 0 false hq hs himpt
    · rw [if_pos hk]
      exact ih s (k - 1) e hq hs himpt

/-- Unterminated-comment lemma: while a block comment is open, if neither a
stacked closing marker nor any end marker of the language occurs in the
suffix, the window scan keeps the comment stack non-empty (it can only grow
by nested openings) and the quote stays closed. -/
theorem windowGo_stack_stays :
    ∀ (rest : List Nat) (s : SyntaxCounter) (k : Nat) (e : Bool),
      s.quote = none → s.stack ≠ [] →
      (∀ m ∈ s.stack, contains_slice rest m = false) →
      (∀ p ∈ s.multi_line_comments, contains_slice rest p.2 = false) →
      (windowGo s rest k e).1.stack ≠ [] ∧
        (windowGo s rest k e).1.quote = none := by
  intro rest
  induction rest with
  | nil => intro s k e hq hs _ _; exact ⟨hs, hq⟩
  | cons b tail ih =>
    intro s k e hq hs h1 h2
    have h1t : ∀ m ∈ s.stack, contains_slice tail m = false :=
      fun m hm => contains_slice_tail_eq_false (h1 m hm)
    have h2t : ∀ p ∈ s.multi_line_comments, contains_slice tail p.2 = false :=
      fun p hp => contains_slice_tail_eq_false (h2 p hp)
    rw [windowGo_cons]
    by_cases hk : k = 0
    · subst hk
      simp only [ne_eq, not_true_eq_false, if_false]
      rw [parse_end_of_quote_none_of_no_quote _ hq]
      rw [parse_end_of_multi_none_of_no_closer
        (fun m hm => isPrefixOf_eq_false_of_contains (h1 m hm))]
      have hqf : s.quote.isSome = false := by simp [hq]
      rw [hqf]
      simp only [Bool.false_eq_true, if_false]
      rw [parse_quote_none_of_stack _ hs]
      cases h4 : parse_multi_line_comment s (b :: tail) with
      | some r =>
        obtain ⟨m, s1⟩ := r
        obtain ⟨p, hp, hs1⟩ := parse_multi_inv h4
        have hq1 : s1.quote = none := by rw [hs1]; exact hq
        have hst1 : s1.stack ≠ [] := by rw [hs1]; simp
        have hm1 : ∀ x ∈ s1.stack, contains_slice tail x = false := by
          intro x hx
          rw [hs1] at hx
          rcases List.mem_cons.mp hx with hx2 | hx2
          · subst hx2; exact h2t p hp
          · exact h1t x hx2
        have hmm1 : ∀ q ∈ s1.multi_line_comments, contains_slice tail q.2 = false := by
          intro q hqq
          rw [hs1] at hqq
          exact h2t q hqq
        exact ih s1 (m - 1) false hq1 hst1 hm1 hmm1
      | none =>
        rw [parse_line_comment_false_of_stack _ hs]
        simp only [Bool.false_eq_true, if_false]
        exact ih s 0 false hq hs h1t h2t
    · rw [if_pos hk]
      exact ih s (k - 1) e hq hs h1t h2t

/-! Theorems for the claims. -/

/-- Claim C1: for every input parsed with the `Stats` summary sink, the
final counts satisfy `lines = code + comments + blanks`; the running line
count is not maintained incrementally (none of the three per-line
operations of the `Stats` sink touches `lines`) but derived by the
post-processing step at the end. -/
theorem stats_invariant_after_postprocess (lang : Language) (config : Config)
    (text : List Nat) :
    ((parse_from_slice lang config text statsSummary Stats.new).lines =
      (parse_from_slice lang config text statsSummary Stats.new).code +
      (parse_from_slice lang config text statsSummary Stats.new).comments +
      (parse_from_slice lang config text statsSummary Stats.new).blanks) ∧
    (∀ (s : Stats) (l : List Nat),
      (statsSummary.code_line s l).lines = s.lines ∧
      (statsSummary.comment_line s l).lines = s.lines ∧
      (statsSummary.blank_line s l).lines = s.lines) ∧
    (∀ s : Stats,
      (statsSummary.postprocess s).lines = s.blanks + s.code + s.comments) := by
  refine ⟨?_, fun s l => ⟨rfl, rfl, rfl⟩, fun s => rfl⟩
  unfold parse_from_slice
  cases hb : lang.is_blank with
  | true =>
    simp only [if_pos rfl]
    simp [statsSummary, Stats.new]
  | false =>
    simp only [Bool.false_eq_true, if_false]
    unfold parse_lines
    simp [statsSummary]
    omega

/-- Claim C7: a line whose bytes are empty after trimming whitespace is
reported as blank regardless of the current scan state, and processing it
leaves the scan state completely unchanged. -/
theorem blank_line_frame (config : Config) (s : SyntaxCounter)
    (raw_line : List Nat) (h : trim raw_line = []) :
    processLine config s raw_line = (s, LineKind.blank) := by
  simp [processLine, h]

/-- Witness for C7: a whitespace-only line (space, TAB, CR) is blank and
leaves an arbitrary concrete scan state untouched. -/
theorem blank_line_frame_witness :
    processLine (Config.mk none) insideCommentState [32, 9, 13] =
      (insideCommentState, LineKind.blank) :=
  blank_line_frame (Config.mk none) insideCommentState [32, 9, 13] (by decide)

/-- Claim C8: for every file of a language flagged `is_blank`, the final
`Stats` counts satisfy `code = lines`, `comments = 0` and `blanks = 0`, and
`code` is the number of lines of the file, counted in a single batch. -/
theorem blank_language_all_code (lang : Language) (config : Config)
    (text : List Nat) (hb : lang.is_blank = true) :
    ((parse_from_slice lang config text statsSummary Stats.new).code =
      (parse_from_slice lang config text statsSummary Stats.new).lines) ∧
    ((parse_from_slice lang config text statsSummary Stats.new).comments = 0) ∧
    ((parse_from_slice lang config text statsSummary Stats.new).blanks = 0) ∧
    ((parse_from_slice lang config text statsSummary Stats.new).code =
      (splitLines text).length) := by
  unfold parse_from_slice
  simp [hb, statsSummary, Stats.new]

/-- Witness for C8: a two-line file of the blank language, whitespace-only
first line included, is counted entirely as code. -/
theorem blank_language_all_code_witness :
    ((parse_from_slice blankLang (Config.mk none) [32, 10, 120, 10]
        statsSummary Stats.new).code =
      (parse_from_slice blankLang (Config.mk none) [32, 10, 120, 10]
        statsSummary Stats.new).lines) ∧
    ((parse_from_slice blankLang (Config.mk none) [32, 10, 120, 10]
        statsSummary Stats.new).comments = 0) ∧
    ((parse_from_slice blankLang (Config.mk none) [32, 10, 120, 10]
        statsSummary Stats.new).blanks = 0) ∧
    ((parse_from_slice blankLang (Config.mk none) [32, 10, 120, 10]
        statsSummary Stats.new).code =
      (splitLines [32, 10, 120, 10]).length) :=
  blank_language_all_code blankLang (Config.mk none) [32, 10, 120, 10] (by decide)

/-- Counterexample to claim C4 as stated: not every line inside an
unterminated block comment is classified as comment — a whitespace-only
line there is classified as blank (and leaves the state untouched), so the
file `/*` + blank line + ` x` of `cLang` ends with one blank line, not with
every subsequent line counted as comment.  Parsing still completes and
returns counts. -/
theorem unterminated_comment_blank_counterexample :
    (processLine (Config.mk none) insideCommentState [10] =
      (insideCommentState, LineKind.blank)) ∧
    (parse_from_slice cLang (Config.mk none) c4text statsSummary Stats.new =
      { lines := 3, code := 0, comments := 2, blanks := 1 }) := by
  decide

/-- Claim C4 (amended): the scanner is total (the embedding is a total
function, mirroring that the source never errors), and every *non-blank*
line that begins inside an open block comment whose closing markers occur
nowhere in the line is classified as comment, with the comment stack still
open afterwards; whitespace-only lines inside the comment are counted
blank instead. -/
theorem unterminated_comment_line_is_comment (config : Config)
    (s : SyntaxCounter) (raw_line : List Nat)
    (hb : trim raw_line ≠ []) (hq : s.quote = none) (hs : s.stack ≠ [])
    (h1 : ∀ m ∈ s.stack, contains_slice (lineOf s raw_line) m = false)
    (h2 : ∀ p ∈ s.multi_line_comments,
      contains_slice (lineOf s raw_line) p.2 = false) :
    (processLine config s raw_line).2 = LineKind.comment ∧
    (processLine config s raw_line).1.stack ≠ [] := by
  have hwg := windowGo_stack_stays (lineOf s raw_line) s 0 false hq hs h1 h2
  have hpb : parse_basic s (lineOf s raw_line) = none :=
    parse_basic_none_of_stack hs _
  have hmul : (!s.stack.isEmpty) = true := by
    cases hx : s.stack with
    | nil => exact absurd hx hs
    | cons a t => rfl
  have hst : (windowGo s (lineOf s raw_line) 0 false).1.stack.isEmpty = false := by
    cases hx : (windowGo s (lineOf s raw_line) 0 false).1.stack with
    | nil => exact absurd hx hwg.1
    | cons a t => rfl
  have hcomm : is_comments config (windowGo s (lineOf s raw_line) 0 false).1
      (lineOf s raw_line) (!s.stack.isEmpty)
      (windowGo s (lineOf s raw_line) 0 false).2 = true := by
    unfold is_comments
    simp [hst, hmul]
  constructor
  · simp only [processLine, if_neg hb]
    rw [hpb, hcomm]
    rfl
  · simp only [processLine, if_neg hb]
    rw [hpb]
    exact hwg.1

/-- Witness for C4 (amended): inside the open `/*` comment of `cLang`, the
non-blank line ` x` containing no `*/` is classified comment and the
comment stays open. -/
theorem unterminated_comment_line_is_comment_witness :
    ((processLine (Config.mk none) insideCommentState [32, 120]).2 =
      LineKind.comment) ∧
    ((processLine (Config.mk none) insideCommentState [32, 120]).1.stack ≠ []) :=
  unterminated_comment_line_is_comment (Config.mk none) insideCommentState
    [32, 120] (by decide) (by decide) (by decide) (by decide) (by decide)

/-- Counterexample to claim C9 as stated: for the `is_blank` language the
post-processing operation of the summary sink is never invoked — the
instrumented sink counts zero invocations, not exactly one, because
`parse_from_slice` returns the summary directly after `unprocessed_lines`. -/
theorem postprocess_skipped_for_blank_language :
    parse_from_slice blankLang (Config.mk none) [120] countingSummary 0 ≠ 1 := by
  decide

/-- Claim C9 (amended): the post-processing operation is invoked exactly
once — after the last line, before the summary is returned — for every
input of a language that is not flagged `is_blank`; for an `is_blank`
language it is not invoked at all. -/
theorem postprocess_invocation_count (lang : Language) (config : Config)
    (text : List Nat) :
    parse_from_slice lang config text countingSummary 0 =
      (if lang.is_blank then 0 else 1) := by
  unfold parse_from_slice
  cases hb : lang.is_blank with
  | true => rfl
  | false =>
    simp only [Bool.false_eq_true, if_false]
    unfold parse_lines
    rw [counting_fold]
    rfl

/-- Claim C2: the Fast Path is a pure optimization.  Whenever `parse_basic`
succeeds — no open quote, empty comment stack, and no important marker
occurs in the (trimmed) line — processing the line with the Fast Path
enabled produces exactly what the full byte-window scan produces, the scan
state is left unchanged, and the reported classification is comment exactly
when the line starts with a line-comment marker, else code. -/
theorem fast_path_equivalence (config : Config) (s : SyntaxCounter)
    (raw_line : List Nat) (hq : s.quote = none) (hs : s.stack = [])
    (himp : ∀ m ∈ important_markers s,
      contains_slice (lineOf s raw_line) m = false) :
    processLine config s raw_line = processLineFull config s raw_line ∧
    (processLine config s raw_line).1 = s ∧
    (trim raw_line ≠ [] →
      (processLine config s raw_line).2 =
        if s.line_comments.any (fun m => m.isPrefixOf (lineOf s raw_line))
        then LineKind.comment else LineKind.code) := by
  by_cases hb : trim raw_line = []
  · refine ⟨?_, ?_, fun h => absurd hb h⟩
    · simp [processLine, processLineFull, hb]
    · simp [processLine, hb]
  · have hqs : s.quote.isSome = false := by simp [hq]
    have hse : s.stack.isEmpty = true := by simp [hs]
    have hany : ( important_markers s).any
        (fun m => contains_slice (lineOf s raw_line) m) = false := by
      rw [List.any_eq_false]
      intro m hm
      simp [himp m hm]
    have hpb : parse_basic s (lineOf s raw_line) =
        some (if s.line_comments.any (fun m => m.isPrefixOf (lineOf s raw_line))
          then LineKind.comment else LineKind.code) := by
      unfold parse_basic
      rw [hqs, hse, hany]
      simp only [Bool.not_true, Bool.or_false, Bool.false_or,
        Bool.false_eq_true, if_false]
      cases hlc : s.line_comments.any (fun m => m.isPrefixOf (lineOf s raw_line)) with
      | true => simp [hlc]
      | false => simp [hlc]
    have hcalm : (windowGo s (lineOf s raw_line) 0 false).1 = s :=
      windowGo_calm (lineOf s raw_line) s 0 false hq hs himp
    have hms : (s.multi_line_comments.map Prod.fst).any
        (fun c => c.isPrefixOf (lineOf s raw_line)) = false := by
      rw [List.any_eq_false]
      intro c hc
      have hcc : contains_slice (lineOf s raw_line) c = false := by
        apply himp
        unfold important_markers
        exact List.mem_append.mpr (Or.inr hc)
      simp [isPrefixOf_eq_false_of_contains hcc]
    have hds : s.doc_quotes.any
        (fun p => p.1.isPrefixOf (lineOf s raw_line)) = false := by
      rw [List.any_eq_false]
      intro p hp
      have hmem : p.1 ∈ important_markers s := by
        unfold important_markers
        exact List.mem_append.mpr (Or.inl (List.mem_append.mpr
          (Or.inr (List.mem_map.mpr ⟨p, hp, rfl⟩))))
      simp [isPrefixOf_eq_false_of_contains (himp p.1 hmem)]
    have hic : ∀ e : Bool,
        is_comments config s (lineOf s raw_line) (!s.stack.isEmpty) e =
          s.line_comments.any (fun m => m.isPrefixOf (lineOf s raw_line)) := by
      intro e
      unfold is_comments
      simp [start_of_comments, List.any_append, hms, hds, hq, hse]
    have hfull : processLineFull config s raw_line =
        (s, if s.line_comments.any (fun m => m.isPrefixOf (lineOf s raw_line))
          then LineKind.comment else LineKind.code) := by
      simp only [processLineFull, if_neg hb]
      rw [hcalm, hic]
    have hpl : processLine config s raw_line =
        (s, if s.line_comments.any (fun m => m.isPrefixOf (lineOf s raw_line))
          then LineKind.comment else LineKind.code) := by
      simp only [processLine, if_neg hb]
      rw [hpb]
    exact ⟨by rw [hpl, hfull], by rw [hpl], fun _ => by rw [hpl]⟩

/-- Witness for C2: on the line `let x` of `cLang` (no quote open, empty
stack, no important marker in the line) the Fast Path agrees with the full
scan. -/
theorem fast_path_equivalence_witness :
    processLine (Config.mk none) (SyntaxCounter.new cLang)
        [108, 101, 116, 32, 120] =
      processLineFull (Config.mk none) (SyntaxCounter.new cLang)
        [108, 101, 116, 32, 120] :=
  (fast_path_equivalence (Config.mk none) (SyntaxCounter.new cLang)
    [108, 101, 116, 32, 120] (by decide) (by decide) (by decide)).1

/-- Claim C5: at every byte position, the window scan attempts the checks
in the fixed order end-of-quote, end-of-multi-line comment, then (only when
no quote is open) open-quote, open-multi-line comment, and line-comment
detection last; the first match consumes its bytes (skipping the remaining
checks at that position and the consumed positions), and a line-comment
match stops the scan of the rest of the line.  Formalised as: the source's
skip-counter loop `windowGo` is extensionally equal to `orderedScan`, the
scan written directly from the claim's wording, with a pending skip count
corresponding to resuming directly after the consumed bytes. -/
theorem window_scan_check_order :
    (∀ (s : SyntaxCounter) (line : List Nat) (e : Bool),
      windowGo s line 0 e = orderedScan s line e) ∧
    (∀ (s : SyntaxCounter) (line : List Nat) (k : Nat) (e : Bool),
      windowGo s line k e = orderedScan s (line.drop k) e) := by
  constructor
  · intro s line e
    have h := windowGo_eq_orderedScan_aux line.length line (Nat.le_refl _) s 0 e
    simpa using h
  · intro s line k e
    exact windowGo_eq_orderedScan_aux line.length line (Nat.le_refl _) s k e

/-- Claim C3: a line-comment marker inside an open quote literal never
triggers comment classification.  First conjunct: for the language with
line-comment marker `//` and quote marker `"`, the single-line file
`x = "a // b"` is counted as one code line and no comment line.  Second
conjunct: while a quote is open, once the close-quote (and close-comment)
checks fail at a position, the scanner skips the byte without applying any
other check and without touching the state. -/
theorem quote_shields_line_comment :
    (parse_from_slice cLang (Config.mk none) c3text statsSummary Stats.new =
      { lines := 1, code := 1, comments := 0, blanks := 0 }) ∧
    (∀ (s : SyntaxCounter) (b : Nat) (tail : List Nat) (e : Bool),
      s.quote.isSome = true →
      parse_end_of_quote s (b :: tail) = none →
      parse_end_of_multi_line s (b :: tail) = none →
      windowGo s (b :: tail) 0 e = windowGo s tail 0 false) := by
  refine ⟨by decide, ?_⟩
  intro s b tail e hq h1 h2
  simp [windowGo, h1, h2, hq]

/-- Witness for C3: inside the open `"` quote of `cLang`, the byte `a`
matches no close-quote check and is skipped with the state unchanged. -/
theorem quote_shields_line_comment_witness :
    windowGo qState [97] 0 false = windowGo qState [] 0 false :=
  quote_shields_line_comment.2 qState 97 [] false (by decide) (by decide)
    (by decide)

/-- Claim C6: doc-string-as-comment classification is active exactly when
the configuration is `some true`.  For the Python-like language, the line
`"""d"""` (solely a doc-quote-delimited string) is classified comment under
`some true` and code under `none` and under `some false`; moreover the
classifier's output does not depend on the configuration at all as long as
it differs from `some true`. -/
theorem doc_string_toggle :
    ((processLine (Config.mk (some true)) (SyntaxCounter.new pyLang)
        docLine).2 = LineKind.comment) ∧
    ((processLine (Config.mk none) (SyntaxCounter.new pyLang)
        docLine).2 = LineKind.code) ∧
    ((processLine (Config.mk (some false)) (SyntaxCounter.new pyLang)
        docLine).2 = LineKind.code) ∧
    (∀ (c1 c2 : Config) (s : SyntaxCounter) (raw_line : List Nat),
      c1.treat_doc_strings_as_comments ≠ some true →
      c2.treat_doc_strings_as_comments ≠ some true →
      processLine c1 s raw_line = processLine c2 s raw_line) := by
  refine ⟨by decide, by decide, by decide, ?_⟩
  intro c1 c2 s raw_line h1 h2
  have hic : ∀ (st : SyntaxCounter) (line : List Nat) (hm e : Bool),
      is_comments c1 st line hm e = is_comments c2 st line hm e := by
    intro st line hm e
    unfold is_comments
    rw [beq_some_true_eq_false h1, beq_some_true_eq_false h2]
  by_cases hb : trim raw_line = []
  · simp [processLine, hb]
  · simp only [processLine, if_neg hb]
    cases hpb : parse_basic s (lineOf s raw_line) with
    | some k => simp [hpb]
    | none => simp [hpb, hic]

/-- Witness for C6: with the doc-string feature not activated, `none` and
`some false` classify the doc-string line identically. -/
theorem doc_string_toggle_witness :
    processLine (Config.mk none) (SyntaxCounter.new pyLang) docLine =
      processLine (Config.mk (some false)) (SyntaxCounter.new pyLang) docLine :=
  doc_string_toggle.2.2.2 (Config.mk none) (Config.mk (some false))
    (SyntaxCounter.new pyLang) docLine (by decide) (by decide)

/-- Counterexample to claim C10 as stated: a line that begins inside an
open block comment of `cLang` and reads `/* */ x` closes the last open
comment at `*/`, then scans ` x` (two further positions, no re-entered
comment, no line-comment marker, no doc-quote) — the final scan state is
clean and the ended-with-comment flag is reset, yet the line is classified
comment, not code, because the trimmed line starts with the block-comment
start marker `/*` (clause (b) of the classification predicate), a
condition the claim does not except. -/
theorem comment_prefix_overrides_code :
    ((processLine (Config.mk none) insideCommentState
        [47, 42, 32, 42, 47, 32, 120]).2 = LineKind.comment) ∧
    (windowGo insideCommentState [47, 42, 32, 42, 47, 32, 120] 0 false =
      (SyntaxCounter.new cLang, false)) := by
  decide

/-- Claim C10 (amended): the ended-with-comment flag is reset at every
scanned byte position, so only the final state of the line feeds the
classification (first conjunct: the scan of a non-empty suffix with a zero
skip count is independent of the incoming flag).  Second conjunct: a line
beginning inside an open block comment whose scan ends with an empty
comment stack and a reset flag is classified as code — provided
additionally that the (trimmed) line does not start with a line-comment or
block-comment start marker and the doc-quote-as-comment clause does not
apply, exceptions the original claim omits. -/
theorem ended_with_comment_final_state :
    (∀ (s : SyntaxCounter) (b : Nat) (tail : List Nat) (e1 e2 : Bool),
      windowGo s (b :: tail) 0 e1 = windowGo s (b :: tail) 0 e2) ∧
    (∀ (config : Config) (s s1 : SyntaxCounter) (raw_line : List Nat),
      trim raw_line ≠ [] → s.stack ≠ [] →
      windowGo s (lineOf s raw_line) 0 false = (s1, false) →
      s1.stack = [] →
      (∀ c ∈ start_of_comments s1,
        c.isPrefixOf (lineOf s raw_line) = false) →
      ((s1.quote.isSome || s1.doc_quotes.any
          (fun p => p.1.isPrefixOf (lineOf s raw_line))) &&
        (config.treat_doc_strings_as_comments == some true) &&
        s1.quote_is_doc_quote) = false →
      processLine config s raw_line = (s1, LineKind.code)) := by
  constructor
  · intro s b tail e1 e2
    rw [windowGo_cons, windowGo_cons]
    simp
  · intro config s s1 raw_line hb hs hw hst hpre hdoc
    have hpb : parse_basic s (lineOf s raw_line) = none :=
      parse_basic_none_of_stack hs _
    have hempty : s1.stack.isEmpty = true := by rw [hst]; rfl
    have hany : ( start_of_comments s1).any
        (fun c => c.isPrefixOf (lineOf s raw_line)) = false := by
      rw [List.any_eq_false]
      intro c hc
      simp [hpre c hc]
    have hic : is_comments config s1 (lineOf s raw_line)
        (!s.stack.isEmpty) false = false := by
      unfold is_comments
      rw [hany, hdoc, hempty]
      simp
    simp only [processLine, if_neg hb]
    rw [hpb, hw]
    simp only []
    rw [hic]
    rfl

/-- Witness for C10 (amended): from inside the open `/*` comment of
`cLang`, the line `*/ x` closes the comment, scans on past ` x`, and is
classified code with the scan state back to the fresh state. -/
theorem ended_with_comment_final_state_witness :
    processLine (Config.mk none) insideCommentState [42, 47, 32, 120] =
      (SyntaxCounter.new cLang, LineKind.code) :=
  ended_with_comment_final_state.2 (Config.mk none) insideCommentState
    (SyntaxCounter.new cLang) [42, 47, 32, 120] (by decide) (by decide)
    (by decide) (by decide) (by decide) (by decide)

end Tokei
